import Mathlib

/-
Verification development for the minion-manager agent (AWS implementation).

The definitions below are a shallow embedding of the Python sources
src/cloud_provider/aws/aws_minion_manager.py and
src/cloud_provider/aws/asg_mm.py.  Provider calls (boto3) are modelled by
explicit oracle arguments: a call's response is an argument of the embedded
function, and a call that can fail after its retries is modelled by a Bool
outcome argument (true = the call succeeded).  Python strings are modelled
by String or by List Char where character-level reasoning is needed.
-/

namespace MinionManager

/-! ## Character-list utilities (Python substring / prefix operations) -/

/-- Does the needle occur at the very start of the haystack?  Models
Python's startswith on character lists. -/
def startsWithL : List Char → List Char → Bool
  | [], _ => true
  | _ :: _, [] => false
  | a :: as, b :: bs => a == b && startsWithL as bs

/-- Does the needle occur anywhere in the haystack?  Models Python's
substring containment (needle in haystack). -/
def containsL (needle : List Char) : List Char → Bool
  | [] => startsWithL needle []
  | c :: cs => startsWithL needle (c :: cs) || containsL needle cs

/-- Remove the given leading characters, if the list starts with them. -/
def stripL : List Char → List Char → Option (List Char)
  | [], l => some l
  | _ :: _, [] => none
  | a :: as, b :: bs => if a == b then stripL as bs else none

/-- The character class [a-zA-Z0-9] of the spot-request regex. -/
def isAlnumPy (c : Char) : Bool :=
  ('a' ≤ c && c ≤ 'z') || ('A' ≤ c && c ≤ 'Z') || ('0' ≤ c && c ≤ '9')

/-! ## Tags and group metadata (asg_mm.py) -/

structure Tag where
  key : String
  value : String
deriving DecidableEq, Repr

def MINION_MANAGER_LABEL : String := "k8s-minion-manager"

/-- Python's str.lower, written character-by-character so that it is
transparent to kernel evaluation. -/
def pyLower (s : String) : String := String.mk (s.data.map Char.toLower)

/-- AWSAutoscalinGroupMM.get_mm_tag: the value (lower-cased) of the first
k8s-minion-manager tag, defaulting to no-spot when the tag is absent. -/
def get_mm_tag (tags : List Tag) : String :=
  match tags.find? (fun t => t.key == MINION_MANAGER_LABEL) with
  | some t => pyLower t.value
  | none => "no-spot"

/-- AWSAutoscalinGroupMM.set_asg_info: any k8s-minion-manager tag whose value
is neither use-spot nor no-spot is rewritten to no-spot. -/
def set_asg_info_tags (tags : List Tag) : List Tag :=
  tags.map fun t =>
    if t.key == MINION_MANAGER_LABEL && !(t.value == "use-spot" || t.value == "no-spot")
    then { t with value := "no-spot" } else t

/-- Modelled from the spec: AWSAutoscalinGroupMM.not_terminate_instance is
invoked by discover_asgs and by schedule_instance_termination but is not
defined in asg_mm.py in this source tree.  The spec defines the derived
query notTerminate(group) as the lookup minion-manager/not-terminate == "true"
on the group's tag list. -/
def not_terminate_instance (tags : List Tag) : Bool :=
  tags.any fun t => t.key == "minion-manager/not-terminate" && t.value == "true"

/-! ## Bid info -/

structure BidInfo where
  type : String
  price : Option String
deriving DecidableEq, Repr

/-- AWSMinionManager.are_bids_equal. -/
def are_bids_equal (cur_bid_info new_bid_info : BidInfo) : Bool :=
  if cur_bid_info.type != new_bid_info.type then false
  else if cur_bid_info.type == "on-demand" then true
  else cur_bid_info.price == new_bid_info.price

/-- AWSMinionManager.create_on_demand_bid_info. -/
def create_on_demand_bid_info : BidInfo := { type := "on-demand", price := some "" }

/-! ## check_scaling_group_instances and update_needed

check_scaling_group_instances polls describe_auto_scaling_groups up to three
times (sleeping 60s between attempts).  The poll results are modelled by an
oracle obs : attempt index to (DesiredCapacity, number of Instances). -/

def csgiGo (obs : Nat → Nat × Nat) : Nat → Nat → Bool
  | 0, _ => false
  | Nat.succ n, i => if (obs i).1 ≤ (obs i).2 then true else csgiGo obs n (i + 1)

/-- AWSMinionManager.check_scaling_group_instances with its three
attempts_to_converge. -/
def check_scaling_group_instances (obs : Nat → Nat × Nat) : Bool :=
  csgiGo obs 3 0

/-- AWSMinionManager.update_needed.  The event-emission calls (log_k8s_event)
do not influence the returned value and are omitted.  The final false branch
covers the source's assertion failure on an unrecognized bid type, which the
surrounding except handler turns into a False return. -/
def update_needed (tags : List Tag) (bid : BidInfo) (obs : Nat → Nat × Nat) : Bool :=
  let asg_tag := get_mm_tag tags
  if asg_tag == "no-spot" && bid.type == "spot" then true
  else if asg_tag == "no-spot" && bid.type == "on-demand" then false
  else if bid.type == "on-demand" then true
  else if bid.type == "spot" then !(check_scaling_group_instances obs)
  else false

/-! ## Bid advisor recommendation (spec-modelled) -/

structure SpotEntryQ where
  InstanceType : String
  AvailabilityZone : String
  SpotPrice : ℚ
deriving DecidableEq, Repr

structure BidQ where
  bidType : String
  bidPrice : Option ℚ
deriving DecidableEq, Repr

/-- Modelled from the spec: AWSBidAdvisor.get_new_bid - the bid advisor's
source file aws_bid_advisor.py is not in this source tree (only its unit
tests are).  The spec's recommend(zones, instanceType): if either price table
is empty, or the instance type has no on-demand price, or no spot entry
matches the type and one of the zones, return the on-demand bid; otherwise
compare the maximal matching spot price times 1.2 against the on-demand
price.  Price strings are modelled as rationals. -/
def get_new_bid (onDemand : List (String × ℚ)) (spot : List SpotEntryQ)
    (zones : List String) (instance_type : String) : BidQ :=
  if onDemand.isEmpty || spot.isEmpty then { bidType := "on-demand", bidPrice := none }
  else
    match onDemand.find? (fun p => p.1 == instance_type) with
    | none => { bidType := "on-demand", bidPrice := none }
    | some od =>
      match spot.filter (fun e => e.InstanceType == instance_type && zones.contains e.AvailabilityZone) with
      | [] => { bidType := "on-demand", bidPrice := none }
      | e :: rest =>
        let maxSpot := rest.foldl (fun a x => max a x.SpotPrice) e.SpotPrice
        if maxSpot * (6/5 : ℚ) < od.2 then { bidType := "spot", bidPrice := some od.2 }
        else { bidType := "on-demand", bidPrice := none }

/-! ## set_semaphore -/

/-- Python 2 round() : round half away from zero. -/
def pyRound (q : ℚ) : ℤ :=
  if 0 ≤ q then ⌊q + 1/2⌋ else -⌊(1/2) - q⌋

/-- AWSMinionManager.set_semaphore: number of slots of the per-group
semaphore, given the group's DesiredCapacity (from the describe call) and
the configured terminate_percentage. -/
def set_semaphore (desired : Nat) (terminate_percentage : ℚ) : ℤ :=
  let tp := if terminate_percentage > 100 then 100
            else if terminate_percentage ≤ 0 then 1
            else terminate_percentage
  let svalue := pyRound ((desired : ℚ) * (tp / 100))
  if svalue = 0 then 1 else svalue

/-! ## Insufficient-capacity detector (check_insufficient_capacity)

Status messages are modelled as List Char.  The regex
Placed Spot instance request: (sir-[a-zA-Z0-9]+)\. Waiting for instance\(s\)
is matched by an explicit scanner: re.search tries every start position from
the left; at a match position the greedy character class takes the maximal
alphanumeric run (no backtracking can shorten it, because the following
literal starts with a dot, which the class does not match). -/

def spotReqHead : List Char := "Placed Spot instance request: sir-".data

def spotReqTail : List Char := ". Waiting for instance(s)".data

/-- Try to match the spot-request regex at the start of the list; on success
return the captured request id (sir- followed by the alphanumeric run). -/
def matchSpotReqAt (l : List Char) : Option (List Char) :=
  match stripL spotReqHead l with
  | none => none
  | some rest =>
    let run := rest.takeWhile isAlnumPy
    if run.isEmpty then none
    else if startsWithL spotReqTail (rest.dropWhile isAlnumPy) then
      some ("sir-".data ++ run)
    else none

/-- re.search for the spot-request regex: leftmost match wins. -/
def searchSpotReq : List Char → Option (List Char)
  | [] => none
  | c :: cs =>
    match matchSpotReqAt (c :: cs) with
    | some r => some r
    | none => searchSpotReq cs

def INSUFFICIENT_CAPACITY_MESSAGE : List (List Char) :=
  ["We currently do not have sufficient".data,
   "capacity in the Availability Zone you requested".data]

def WAITING_SPOT_INSTANCE_MESSAGE : List (List Char) :=
  ["Placed Spot instance request:".data, "Waiting for instance(s)".data]

/-- The source's all-substrings-present check, written there as a length
comparison of a filtered list. -/
def containsAllL (needles : List (List Char)) (m : List Char) : Bool :=
  needles.all fun n => containsL n m

/-- One scaling activity, with Progress and the optional StatusMessage key. -/
structure Activity where
  Progress : Nat
  StatusMessage : Option (List Char)

/-- One spot request of a describe_spot_instance_requests response;
statusCode is Status.Code when both the Status key and its Code key are
present. -/
structure SpotRequest where
  statusCode : Option (List Char)

/-- AWSMinionManager.check_spot_request_insufficient_capacity, applied to the
SpotInstanceRequests list of the describe response. -/
def check_spot_request_insufficient_capacity (requests : List SpotRequest) : Bool :=
  requests.any fun r =>
    match r.statusCode with
    | some c => c == "capacity-oversubscribed".data || c == "capacity-not-available".data
    | none => false

/-- AWSMinionManager.check_insufficient_capacity over the activities of the
describe_scaling_activities response; spotReqs is the oracle for
describe_spot_instance_requests, keyed by the single request id passed. -/
def check_insufficient_capacity (spotReqs : List Char → List SpotRequest) :
    List Activity → Bool
  | [] => false
  | a :: rest =>
    if a.Progress == 100 then check_insufficient_capacity spotReqs rest
    else
      match a.StatusMessage with
      | none => check_insufficient_capacity spotReqs rest
      | some m =>
        if containsAllL INSUFFICIENT_CAPACITY_MESSAGE m then true
        else if containsAllL WAITING_SPOT_INSTANCE_MESSAGE m then
          match searchSpotReq m with
          | some reqId =>
            if check_spot_request_insufficient_capacity (spotReqs reqId) then true
            else check_insufficient_capacity spotReqs rest
          | none => check_insufficient_capacity spotReqs rest
        else check_insufficient_capacity spotReqs rest

/-! ## Launch-configuration rewrite (update_scaling_group) -/

/-- The new launch-configuration name: Python's
name[-2:] == "-0" test, then name[:-2] or name + "-0".  Python slices are
rendered with truncated subtraction, which reproduces their behaviour on
names shorter than two characters. -/
def new_lc_name (t : String) : String :=
  if t.data.drop (t.data.length - 2) = ['-', '0'] then
    String.mk (t.data.take (t.data.length - 2))
  else t ++ "-0"

structure LcInfo where
  LaunchConfigurationName : String
  SpotPrice : Option String
deriving DecidableEq, Repr

/-- The in-memory per-group metadata touched by update_scaling_group. -/
structure AsgMeta where
  lc_info : LcInfo
  bid_info : BidInfo
deriving DecidableEq, Repr

/-- The provider-side state relevant to the rewrite: which launch
configurations exist and which one the scaling group points at. -/
structure AwsState where
  launch_configs : List String
  asg_lc : String
deriving DecidableEq, Repr

/-- Provider calls attempted by the agent that mutate cloud state.  An
Effect is recorded when the call is attempted, whether or not it succeeds. -/
inductive Effect where
  | createLC (name : String)
  | repointASG (lc : String)
  | deleteLC (name : String)
  | terminateInstance (instanceId : String)
deriving DecidableEq, Repr

/-- Success outcomes (after the three bounded retries) of the three provider
calls update_scaling_group makes, in call order. -/
structure CallOutcomes where
  create_ok : Bool
  update_ok : Bool
  delete_ok : Bool
deriving DecidableEq, Repr

/-- AWSMinionManager.update_scaling_group.  Returns the attempted mutating
calls, the resulting in-memory metadata, the resulting provider state, and
whether the function returned normally (false = an exception escaped after
retries were exhausted; a failed call leaves the provider state unchanged).
create_launch_configuration treats an AlreadyExists conflict as success,
hence the membership test before inserting the new name. -/
def update_scaling_group (events_only : Bool) (m : AsgMeta) (aws : AwsState)
    (oc : CallOutcomes) (new_bid_info : BidInfo) :
    List Effect × AsgMeta × AwsState × Bool :=
  if events_only then ([], m, aws, true)
  else
    let t := m.lc_info.LaunchConfigurationName
    let spot_price : Option String :=
      if new_bid_info.type == "spot" then new_bid_info.price else none
    let nlc := new_lc_name t
    if !oc.create_ok then ([Effect.createLC nlc], m, aws, false)
    else
      let aws1 : AwsState :=
        { aws with launch_configs :=
            if aws.launch_configs.contains nlc then aws.launch_configs
            else aws.launch_configs ++ [nlc] }
      if !oc.update_ok then
        ([Effect.createLC nlc, Effect.repointASG nlc], m, aws1, false)
      else
        let aws2 : AwsState := { aws1 with asg_lc := nlc }
        if !oc.delete_ok then
          ([Effect.createLC nlc, Effect.repointASG nlc, Effect.deleteLC t], m, aws2, false)
        else
          let aws3 : AwsState := { aws2 with launch_configs := aws2.launch_configs.erase t }
          let m2 : AsgMeta :=
            { lc_info := { LaunchConfigurationName := nlc, SpotPrice := spot_price },
              bid_info := new_bid_info }
          ([Effect.createLC nlc, Effect.repointASG nlc, Effect.deleteLC t], m2, aws3, true)

/-! ## Instances and the replacement scheduler -/

structure StateInfo where
  name : Option String
deriving DecidableEq, Repr

/-- An EC2 instance as seen by the scheduler.  lifecycleSpot models the
presence of the InstanceLifecycle key; stateInfo models the optional State
key and its optional Name key. -/
structure Instance where
  InstanceId : String
  InstanceType : String
  lifecycleSpot : Bool
  stateInfo : Option StateInfo
deriving DecidableEq, Repr

/-- AWSAutoscalinGroupMM.is_instance_running. -/
def is_instance_running (i : Instance) : Bool :=
  match i.stateInfo with
  | none => false
  | some st =>
    match st.name with
    | none => false
    | some n => pyLower n == "running"

/-- The per-instance loop of schedule_instance_termination.  kill is the
on_demand_kill_threads key set; the returned pair is the updated key set and
the instances for which a termination timer was registered, in order. -/
def schedule_loop (asg_tag : String) (kill : List String) :
    List Instance → List String × List Instance
  | [] => (kill, [])
  | i :: rest =>
    if i.lifecycleSpot && asg_tag == "use-spot" then schedule_loop asg_tag kill rest
    else if asg_tag == "no-spot" && !i.lifecycleSpot then schedule_loop asg_tag kill rest
    else if !(is_instance_running i) then schedule_loop asg_tag kill rest
    else if kill.contains i.InstanceId then schedule_loop asg_tag kill rest
    else
      let r := schedule_loop asg_tag (kill ++ [i.InstanceId]) rest
      (r.1, i :: r.2)

/-- AWSMinionManager.schedule_instance_termination.  The set_semaphore call
only issues a describe and builds the semaphore passed to the timers; it
does not affect which instances get scheduled and is omitted here. -/
def schedule_instance_termination (events_only : Bool) (tags : List Tag)
    (instances : List Instance) (kill : List String) : List String × List Instance :=
  if instances.isEmpty then (kill, [])
  else if not_terminate_instance tags then (kill, [])
  else if events_only then (kill, [])
  else schedule_loop (get_mm_tag tags) kill instances

inductive RunOutcome where
  | terminated
  | skipped
  | failed
deriving DecidableEq, Repr

/-- AWSMinionManager.run_or_die for one instance.  advisor_bid is the fresh
bid-advisor recommendation (total, per the spec); cordon_ok is whether the
cordon/drain subprocess chain returned (false = it raised); terminate_ok is
whether terminate_instance_in_auto_scaling_group succeeded; wait_ok is
whether the post-termination describe polling returned without raising.
Exceptions are swallowed by the except handler, and the finally block always
pops the instance from the kill map. -/
def run_or_die (tags : List Tag) (advisor_bid : BidInfo) (i : Instance)
    (kill : List String) (cordon_ok terminate_ok wait_ok : Bool) :
    RunOutcome × List String × List Effect :=
  let asg_tag := get_mm_tag tags
  let body : RunOutcome × List Effect :=
    if asg_tag == "use-spot" && i.lifecycleSpot then (RunOutcome.skipped, [])
    else if asg_tag == "no-spot" && !i.lifecycleSpot then (RunOutcome.skipped, [])
    else if asg_tag == "use-spot" && !i.lifecycleSpot && advisor_bid.type == "on-demand" then
      (RunOutcome.skipped, [])
    else if !cordon_ok then (RunOutcome.failed, [])
    else if !terminate_ok then (RunOutcome.failed, [Effect.terminateInstance i.InstanceId])
    else if !wait_ok then (RunOutcome.failed, [Effect.terminateInstance i.InstanceId])
    else (RunOutcome.terminated, [Effect.terminateInstance i.InstanceId])
  (body.1, kill.filter (fun x => x != i.InstanceId), body.2)

/-! ## One reconciliation pass and full executions (minion_manager_work) -/

/-- All inputs one group contributes to a pass: its tags, the instance list
produced by populate_instances, the in-memory metadata and provider state,
and the oracles for every provider response the pass may consult. -/
structure GroupIn where
  tags : List Tag
  instances : List Instance
  meta : AsgMeta
  aws : AwsState
  obs : Nat → Nat × Nat
  activities : List Activity
  spotReqs : List Char → List SpotRequest
  advisor_bid : BidInfo
  oc : CallOutcomes
  cordon_ok : String → Bool
  terminate_ok : String → Bool
  wait_ok : String → Bool

/-- The update portion of the per-group body of minion_manager_work:
update_needed, then the no-spot shortcut, the insufficient-capacity
override, the bid-equality skip, or the plain rewrite. -/
def maybe_update (events_only : Bool) (g : GroupIn) : List Effect × AsgMeta × AwsState :=
  if !(update_needed g.tags g.meta.bid_info g.obs) then ([], g.meta, g.aws)
  else if get_mm_tag g.tags == "no-spot" && g.meta.bid_info.type == "spot" then
    let r := update_scaling_group events_only g.meta g.aws g.oc create_on_demand_bid_info
    (r.1, r.2.1, r.2.2.1)
  else if check_insufficient_capacity g.spotReqs g.activities then
    let r := update_scaling_group events_only g.meta g.aws g.oc create_on_demand_bid_info
    (r.1, r.2.1, r.2.2.1)
  else if are_bids_equal g.meta.bid_info g.advisor_bid then ([], g.meta, g.aws)
  else
    let r := update_scaling_group events_only g.meta g.aws g.oc g.advisor_bid
    (r.1, r.2.1, r.2.2.1)

/-- Fire the termination timers registered for a group, in order, threading
the kill map through and collecting the attempted mutating calls. -/
def run_all (g : GroupIn) (kill : List String) :
    List Instance → List String × List Effect
  | [] => (kill, [])
  | i :: rest =>
    let r := run_or_die g.tags g.advisor_bid i kill
      (g.cordon_ok i.InstanceId) (g.terminate_ok i.InstanceId) (g.wait_ok i.InstanceId)
    let r2 := run_all g r.2.1 rest
    (r2.1, r.2.2 ++ r2.2)

/-- The mutating calls one group gives rise to in a pass: those of its
scheduled termination timers and those of its launch-configuration update. -/
def full_group_trace (events_only : Bool) (g : GroupIn) (kill : List String) :
    List Effect × List String :=
  let s := schedule_instance_termination events_only g.tags g.instances kill
  let u := maybe_update events_only g
  let r := run_all g s.1 s.2
  (u.1 ++ r.2, r.1)

/-- One reconciliation pass, serial over the groups. -/
def pass_trace (events_only : Bool) : List GroupIn → List String → List Effect × List String
  | [], kill => ([], kill)
  | g :: gs, kill =>
    let r := full_group_trace events_only g kill
    let rest := pass_trace events_only gs r.2
    (r.1 ++ rest.1, rest.2)

/-- Every mutating provider call attempted in an execution: a sequence of
reconciliation passes, the kill map threaded through. -/
def execution_trace (events_only : Bool) : List (List GroupIn) → List String → List Effect
  | [], _ => []
  | p :: ps, kill =>
    let r := pass_trace events_only p kill
    r.1 ++ execution_trace events_only ps r.2

/-! ## Attribute dispatch on AWSAutoscalinGroupMM (discover_asgs) -/

/-- The methods the class AWSAutoscalinGroupMM defines in asg_mm.py. -/
def asg_mm_method_names : List String :=
  ["__init__", "get_name", "set_asg_info", "set_lc_info", "set_bid_info",
   "get_asg_info", "get_lc_info", "get_bid_info", "add_instances",
   "remove_instance", "get_instance_info", "get_instances", "get_mm_tag",
   "get_instance_name", "is_instance_running"]

inductive PyError where
  | attributeError (attr : String)
deriving DecidableEq, Repr

/-- Python attribute dispatch on an AWSAutoscalinGroupMM instance: calling a
method that the class does not define raises AttributeError. -/
def call_asg_mm_method (name : String) : Except PyError Unit :=
  if asg_mm_method_names.contains name then Except.ok () else Except.error (PyError.attributeError name)

/-- A group description of the describe_auto_scaling_groups response; only
its tag list matters here. -/
structure AsgDesc where
  Tags : List Tag
deriving DecidableEq, Repr

/-- AWSMinionManager.get_asgs_with_tags: keep the groups with a matching
KubernetesCluster tag and a k8s-minion-manager tag. -/
def get_asgs_with_tags (cluster_name : String) (asgs : List AsgDesc) : List AsgDesc :=
  asgs.filter fun r =>
    (r.Tags.any fun t => t.key == "KubernetesCluster" && t.value == cluster_name) &&
    (r.Tags.any fun t => t.key == MINION_MANAGER_LABEL)

/-- The loop of discover_asgs: for each group build the metadata record
(set_asg_info normalizes the policy tag) and then log, which calls
asg_mm.not_terminate_instance() through attribute dispatch. -/
def discover_loop : List AsgDesc → Except PyError (List AsgDesc)
  | [] => Except.ok []
  | a :: rest =>
    match call_asg_mm_method "not_terminate_instance" with
    | Except.error e => Except.error e
    | Except.ok _ =>
      match discover_loop rest with
      | Except.error e => Except.error e
      | Except.ok r => Except.ok ({ Tags := set_asg_info_tags a.Tags } :: r)

/-- AWSMinionManager.discover_asgs. -/
def discover_asgs (cluster_name : String) (asgs : List AsgDesc) :
    Except PyError (List AsgDesc) :=
  discover_loop (get_asgs_with_tags cluster_name asgs)

/-- schedule_instance_termination with the not_terminate_instance call
modelled as real attribute dispatch rather than the spec-modelled lookup. -/
def schedule_instance_termination_dispatch (events_only : Bool) (tags : List Tag)
    (instances : List Instance) (kill : List String) :
    Except PyError (List String × List Instance) :=
  if instances.isEmpty then Except.ok (kill, [])
  else
    match call_asg_mm_method "not_terminate_instance" with
    | Except.error e => Except.error e
    | Except.ok _ =>
      if not_terminate_instance tags then Except.ok (kill, [])
      else if events_only then Except.ok (kill, [])
      else Except.ok (schedule_loop (get_mm_tag tags) kill instances)

/-! ## Lemmas about the character-list utilities -/

theorem stripL_eq_some : ∀ {p l r : List Char}, stripL p l = some r → l = p ++ r := by
  intro p
  induction p with
  | nil => intro l r h; simpa [stripL] using (Option.some_injective _ h).symm ▸ rfl
  | cons a as ih =>
    intro l r h
    cases l with
    | nil => simp [stripL] at h
    | cons b bs =>
      rw [stripL] at h
      by_cases hab : a == b
      · rw [if_pos hab] at h
        have hb : a = b := by simpa using hab
        simpa [hb] using congrArg (b :: ·) (ih h)
      · rw [if_neg hab] at h; exact absurd h (by simp)

theorem startsWithL_ex : ∀ {p l : List Char}, startsWithL p l = true → ∃ r, l = p ++ r := by
  intro p
  induction p with
  | nil => intro l _; exact ⟨l, rfl⟩
  | cons a as ih =>
    intro l h
    cases l with
    | nil => simp [startsWithL] at h
    | cons b bs =>
      rw [startsWithL, Bool.and_eq_true] at h
      obtain ⟨r, hr⟩ := ih h.2
      exact ⟨r, by simp [hr, (beq_iff_eq.mp h.1)]⟩

theorem startsWithL_self_append : ∀ (p r : List Char), startsWithL p (p ++ r) = true := by
  intro p r
  induction p with
  | nil => rfl
  | cons a as ih => simp [startsWithL, ih]

theorem containsL_of_starts {n l : List Char} (h : startsWithL n l = true) :
    containsL n l = true := by
  cases l with
  | nil => simpa [containsL] using h
  | cons c cs => simp [containsL, h]

theorem containsL_cons {n l : List Char} (c : Char) (h : containsL n l = true) :
    containsL n (c :: l) = true := by
  simp [containsL, h]

theorem containsL_append_left {n t : List Char} :
    ∀ (s : List Char), containsL n t = true → containsL n (s ++ t) = true := by
  intro s h
  induction s with
  | nil => simpa using h
  | cons c cs ih => exact containsL_cons c ih

theorem matchSpotReqAt_contains {l rid : List Char} (h : matchSpotReqAt l = some rid) :
    containsL "Placed Spot instance request:".data l = true ∧
    containsL "Waiting for instance(s)".data l = true := by
  rw [matchSpotReqAt] at h
  cases hs : stripL spotReqHead l with
  | none => rw [hs] at h; exact absurd h (by simp)
  | some rest =>
    rw [hs] at h
    dsimp only at h
    by_cases hrun : (rest.takeWhile isAlnumPy).isEmpty
    · rw [if_pos hrun] at h; exact absurd h (by simp)
    rw [if_neg hrun] at h
    by_cases hsw : startsWithL spotReqTail (rest.dropWhile isAlnumPy) = true
    · have hl : l = spotReqHead ++ rest := stripL_eq_some hs
      obtain ⟨q, hq⟩ := startsWithL_ex hsw
      constructor
      · have h1 : spotReqHead = "Placed Spot instance request:".data ++ " sir-".data := by decide
        rw [hl, h1, List.append_assoc]
        exact containsL_of_starts (startsWithL_self_append _ _)
      · have h2 : rest = rest.takeWhile isAlnumPy ++ rest.dropWhile isAlnumPy :=
          (List.takeWhile_append_dropWhile (p := isAlnumPy) (l := rest)).symm
        rw [hl, h2, ← List.append_assoc]
        apply containsL_append_left
        rw [hq]
        have h3 : spotReqTail ++ q =
            '.' :: ' ' :: ("Waiting for instance(s)".data ++ q) := by
          have h4 : spotReqTail = '.' :: ' ' :: "Waiting for instance(s)".data := by decide
          rw [h4]; rfl
        rw [h3]
        exact containsL_cons _ (containsL_cons _
          (containsL_of_starts (startsWithL_self_append _ _)))
    · rw [if_neg (by simpa using hsw)] at h; exact absurd h (by simp)

theorem searchSpotReq_contains : ∀ {m rid : List Char}, searchSpotReq m = some rid →
    containsL "Placed Spot instance request:".data m = true ∧
    containsL "Waiting for instance(s)".data m = true := by
  intro m
  induction m with
  | nil => intro rid h; simp [searchSpotReq] at h
  | cons c cs ih =>
    intro rid h
    rw [searchSpotReq] at h
    cases hm : matchSpotReqAt (c :: cs) with
    | some r => exact matchSpotReqAt_contains hm
    | none =>
      rw [hm] at h
      obtain ⟨h1, h2⟩ := ih h
      exact ⟨containsL_cons c h1, containsL_cons c h2⟩

theorem containsAll_ins (m : List Char) :
    containsAllL INSUFFICIENT_CAPACITY_MESSAGE m =
      (containsL "We currently do not have sufficient".data m &&
       containsL "capacity in the Availability Zone you requested".data m) := by
  simp [containsAllL, INSUFFICIENT_CAPACITY_MESSAGE]

theorem containsAll_wait (m : List Char) :
    containsAllL WAITING_SPOT_INSTANCE_MESSAGE m =
      (containsL "Placed Spot instance request:".data m &&
       containsL "Waiting for instance(s)".data m) := by
  simp [containsAllL, WAITING_SPOT_INSTANCE_MESSAGE]

theorem exists_mem_cons_of_not_head {α : Type} {a : α} {rest : List α} (P : α → Prop)
    (hna : ¬ P a) : (∃ x ∈ a :: rest, P x) ↔ ∃ x ∈ rest, P x := by
  constructor
  · rintro ⟨x, hx, hP⟩
    rcases List.mem_cons.mp hx with rfl | hx2
    · exact absurd hP hna
    · exact ⟨x, hx2, hP⟩
  · rintro ⟨x, hx, hP⟩
    exact ⟨x, List.mem_cons_of_mem _ hx, hP⟩

/-- C2: check_insufficient_capacity(group) returns true iff some scaling
activity of the group has progress different from 100 and either (a) its
status message contains both insufficient-capacity literals, or (b) its
status message matches the spot-request pattern and some spot request
returned for the extracted id has status code capacity-oversubscribed or
capacity-not-available; an activity with progress 100 never makes it return
true. -/
theorem C2_check_insufficient_capacity (sq : List Char → List SpotRequest)
    (acts : List Activity) :
    check_insufficient_capacity sq acts = true ↔
      ∃ a ∈ acts, a.Progress ≠ 100 ∧ ∃ m, a.StatusMessage = some m ∧
        ((containsL "We currently do not have sufficient".data m = true ∧
          containsL "capacity in the Availability Zone you requested".data m = true) ∨
         ∃ rid, searchSpotReq m = some rid ∧
           check_spot_request_insufficient_capacity (sq rid) = true) := by
  induction acts with
  | nil => simp [check_insufficient_capacity]
  | cons a rest ih =>
    rw [check_insufficient_capacity]
    by_cases hp : a.Progress == 100
    · have hp2 : a.Progress = 100 := by simpa using hp
      rw [if_pos hp, ih]
      exact (exists_mem_cons_of_not_head _ (fun hc => hc.1 hp2)).symm
    · have hp2 : a.Progress ≠ 100 := by simpa using hp
      rw [if_neg hp]
      cases hm : a.StatusMessage with
      | none =>
        dsimp only
        rw [ih]
        refine (exists_mem_cons_of_not_head _ ?_).symm
        rintro ⟨-, m2, hm2, -⟩
        rw [hm] at hm2; exact absurd hm2 (by simp)
      | some m =>
        dsimp only
        by_cases hins : containsAllL INSUFFICIENT_CAPACITY_MESSAGE m = true
        · rw [if_pos hins]
          have hboth := containsAll_ins m ▸ hins
          rw [Bool.and_eq_true] at hboth
          simp only [true_iff]
          exact ⟨a, List.mem_cons_self a rest, hp2, m, hm, Or.inl ⟨hboth.1, hboth.2⟩⟩
        · have hnotboth : ¬ (containsL "We currently do not have sufficient".data m = true ∧
              containsL "capacity in the Availability Zone you requested".data m = true) := by
            intro hc
            exact hins (by rw [containsAll_ins, Bool.and_eq_true]; exact hc)
          rw [if_neg hins]
          by_cases hw : containsAllL WAITING_SPOT_INSTANCE_MESSAGE m = true
          · rw [if_pos hw]
            cases hsr : searchSpotReq m with
            | none =>
              dsimp only
              rw [ih]
              refine (exists_mem_cons_of_not_head _ ?_).symm
              rintro ⟨-, m2, hm2, hdisj⟩
              rw [hm] at hm2
              obtain rfl : m = m2 := by simpa using hm2
              rcases hdisj with hc | ⟨rid, hrid, -⟩
              · exact hnotboth hc
              · rw [hsr] at hrid; exact absurd hrid (by simp)
            | some rid =>
              dsimp only
              by_cases hchk : check_spot_request_insufficient_capacity (sq rid) = true
              · rw [if_pos hchk]
                simp only [true_iff]
                exact ⟨a, List.mem_cons_self a rest, hp2, m, hm, Or.inr ⟨rid, hsr, hchk⟩⟩
              · rw [if_neg hchk, ih]
                refine (exists_mem_cons_of_not_head _ ?_).symm
                rintro ⟨-, m2, hm2, hdisj⟩
                rw [hm] at hm2
                obtain rfl : m = m2 := by simpa using hm2
                rcases hdisj with hc | ⟨rid2, hrid2, hchk2⟩
                · exact hnotboth hc
                · rw [hsr] at hrid2
                  obtain rfl : rid = rid2 := by simpa using hrid2
                  exact hchk hchk2
          · rw [if_neg hw, ih]
            refine (exists_mem_cons_of_not_head _ ?_).symm
            rintro ⟨-, m2, hm2, hdisj⟩
            rw [hm] at hm2
            obtain rfl : m = m2 := by simpa using hm2
            rcases hdisj with hc | ⟨rid, hrid, -⟩
            · exact hnotboth hc
            · obtain ⟨h1, h2⟩ := searchSpotReq_contains hrid
              exact hw (by rw [containsAll_wait, Bool.and_eq_true]; exact ⟨h1, h2⟩)

theorem csgi_false_iff (obs : Nat → Nat × Nat) :
    check_scaling_group_instances obs = false ↔ ∀ i < 3, (obs i).2 < (obs i).1 := by
  have hunf : check_scaling_group_instances obs =
      (if (obs 0).1 ≤ (obs 0).2 then true else
       if (obs 1).1 ≤ (obs 1).2 then true else
       if (obs 2).1 ≤ (obs 2).2 then true else false) := rfl
  rw [hunf]
  split_ifs with h0 h1 h2
  · refine iff_of_false (by simp) ?_
    intro hall; exact absurd (hall 0 (by omega)) (by omega)
  · refine iff_of_false (by simp) ?_
    intro hall; exact absurd (hall 1 (by omega)) (by omega)
  · refine iff_of_false (by simp) ?_
    intro hall; exact absurd (hall 2 (by omega)) (by omega)
  · refine iff_of_true rfl ?_
    intro i hi
    interval_cases i <;> omega

/-- C1: for a group whose policy tag and bid info are populated, and with
all provider queries succeeding, update_needed returns true iff
(policy = no-spot and bid type = spot) or (policy = use-spot and bid type =
on-demand) or (policy = use-spot and bid type = spot and the group has not
converged to its desired capacity in any of the three convergence
attempts). -/
theorem C1_update_needed (tags : List Tag) (bid : BidInfo) (obs : Nat → Nat × Nat)
    (htag : get_mm_tag tags = "no-spot" ∨ get_mm_tag tags = "use-spot")
    (hbid : bid.type = "spot" ∨ bid.type = "on-demand") :
    update_needed tags bid obs = true ↔
      (get_mm_tag tags = "no-spot" ∧ bid.type = "spot") ∨
      (get_mm_tag tags = "use-spot" ∧ bid.type = "on-demand") ∨
      (get_mm_tag tags = "use-spot" ∧ bid.type = "spot" ∧
        ∀ i < 3, (obs i).2 < (obs i).1) := by
  rcases htag with h1 | h1 <;> rcases hbid with h2 | h2 <;>
    simp [update_needed, h1, h2, ← csgi_false_iff obs]

theorem foldl_max_mem {α : Type} [LinearOrder α] (l : List α) :
    ∀ a : α, l.foldl max a = a ∨ l.foldl max a ∈ l := by
  induction l with
  | nil => intro a; exact Or.inl rfl
  | cons b bs ih =>
    intro a
    rw [List.foldl_cons]
    rcases ih (max a b) with h | h
    · rcases max_choice a b with hm | hm
      · exact Or.inl (by rw [h, hm])
      · exact Or.inr (by rw [h, hm]; exact List.mem_cons_self _ _)
    · exact Or.inr (List.mem_cons_of_mem _ h)

theorem le_foldl_max {α : Type} [LinearOrder α] (l : List α) :
    ∀ a : α, a ≤ l.foldl max a := by
  induction l with
  | nil => intro a; exact le_refl a
  | cons b bs ih =>
    intro a
    rw [List.foldl_cons]
    exact le_trans (le_max_left a b) (ih (max a b))

theorem mem_le_foldl_max {α : Type} [LinearOrder α] (l : List α) :
    ∀ (a : α), ∀ x ∈ l, x ≤ l.foldl max a := by
  induction l with
  | nil => intro a x hx; simp at hx
  | cons b bs ih =>
    intro a x hx
    rw [List.foldl_cons]
    rcases List.mem_cons.mp hx with rfl | hx2
    · exact le_trans (le_max_right a x) (le_foldl_max bs (max a x))
    · exact ih (max a b) x hx2

/-- C3: the bid advisor's recommendation (modelled from the spec, the bid
advisor's source not being in this tree) returns the on-demand bid when a
price table is empty, when the instance type has no on-demand price, or when
no spot entry matches the type and a zone; otherwise it compares the maximal
matching spot price times 1.2 with the on-demand price od and returns the
spot bid priced at od exactly when maxSpot * 1.2 < od. -/
theorem C3_get_new_bid (onDemand : List (String × ℚ)) (spot : List SpotEntryQ)
    (zones : List String) (instance_type : String) :
    ((onDemand = [] ∨ spot = []) →
      get_new_bid onDemand spot zones instance_type = { bidType := "on-demand", bidPrice := none }) ∧
    (onDemand.find? (fun p => p.1 == instance_type) = none →
      get_new_bid onDemand spot zones instance_type = { bidType := "on-demand", bidPrice := none }) ∧
    (spot.filter (fun e => e.InstanceType == instance_type && zones.contains e.AvailabilityZone) = [] →
      get_new_bid onDemand spot zones instance_type = { bidType := "on-demand", bidPrice := none }) ∧
    (∀ od m, onDemand.find? (fun p => p.1 == instance_type) = some od →
      m ∈ (spot.filter (fun e => e.InstanceType == instance_type && zones.contains e.AvailabilityZone)).map
          (fun e => e.SpotPrice) →
      (∀ p ∈ (spot.filter (fun e => e.InstanceType == instance_type && zones.contains e.AvailabilityZone)).map
          (fun e => e.SpotPrice), p ≤ m) →
      get_new_bid onDemand spot zones instance_type =
        if m * (6/5 : ℚ) < od.2 then { bidType := "spot", bidPrice := some od.2 }
        else { bidType := "on-demand", bidPrice := none }) := by
  refine ⟨?_, ?_, ?_, ?_⟩
  · rintro (rfl | rfl) <;> simp [get_new_bid]
  · intro hf
    unfold get_new_bid
    split
    · rfl
    · rw [hf]
  · intro hfil
    unfold get_new_bid
    split
    · rfl
    · cases hf : onDemand.find? (fun p => p.1 == instance_type) with
      | none => rfl
      | some od => rw [hfil]
  · intro od m hod hm hub
    have hspot : spot ≠ [] := by rintro rfl; simp at hm
    have hodne : onDemand ≠ [] := by rintro rfl; simp at hod
    unfold get_new_bid
    rw [if_neg (by simp [hodne, hspot])]
    rw [hod]
    cases hfil : spot.filter (fun e => e.InstanceType == instance_type && zones.contains e.AvailabilityZone) with
    | nil => rw [hfil] at hm; simp at hm
    | cons e es =>
      rw [hfil] at hm hub
      rw [List.map_cons] at hm hub
      dsimp only
      have hfoldmap : es.foldl (fun a x => max a x.SpotPrice) e.SpotPrice =
          (es.map (fun x => x.SpotPrice)).foldl max e.SpotPrice := by
        rw [List.foldl_map]
      have hmx : es.foldl (fun a x => max a x.SpotPrice) e.SpotPrice = m := by
        rw [hfoldmap]
        apply le_antisymm
        · rcases foldl_max_mem (es.map (fun x => x.SpotPrice)) e.SpotPrice with h | h
          · rw [h]; exact hub _ (List.mem_cons_self _ _)
          · exact hub _ (List.mem_cons_of_mem _ h)
        · rcases List.mem_cons.mp hm with rfl | h2
          · exact le_foldl_max _ _
          · exact mem_le_foldl_max _ _ _ h2
      rw [hmx]

/-- C4 counterexample: with the create and repoint calls succeeding and the
delete call failing, update_scaling_group raises (returns abnormally) and
the group no longer points at its prior launch configuration "lc" - it
points at the freshly created "lc-0".  This refutes the claim that any
provider-call failure leaves the group pointing at its prior launch
configuration. -/
theorem C4_counterexample :
    (update_scaling_group false ⟨⟨"lc", none⟩, ⟨"spot", some "0.1"⟩⟩ ⟨["lc"], "lc"⟩
      ⟨true, true, false⟩ ⟨"spot", some "0.2"⟩).2.2.2 = false ∧
    (update_scaling_group false ⟨⟨"lc", none⟩, ⟨"spot", some "0.1"⟩⟩ ⟨["lc"], "lc"⟩
      ⟨true, true, false⟩ ⟨"spot", some "0.2"⟩).2.2.1.asg_lc ≠ "lc" ∧
    (update_scaling_group false ⟨⟨"lc", none⟩, ⟨"spot", some "0.1"⟩⟩ ⟨["lc"], "lc"⟩
      ⟨true, true, false⟩ ⟨"spot", some "0.2"⟩).2.2.1.asg_lc = "lc-0" := by
  decide

/-- C4 amended: if the create call or the repoint call fails, the in-memory
launch-config and bid info are unchanged and the group still points at its
prior launch configuration; if the delete call fails, the in-memory info is
unchanged but the group already points at the new configuration (the old one
is merely orphaned); on success the effects happen in the order create,
repoint, delete, and only then is the in-memory metadata updated. -/
theorem C4_amended (m : AsgMeta) (aws : AwsState) (oc : CallOutcomes) (nb : BidInfo) :
    (oc.create_ok = false →
      (update_scaling_group false m aws oc nb).2.1 = m ∧
      (update_scaling_group false m aws oc nb).2.2.1 = aws ∧
      (update_scaling_group false m aws oc nb).2.2.2 = false) ∧
    (oc.create_ok = true → oc.update_ok = false →
      (update_scaling_group false m aws oc nb).2.1 = m ∧
      (update_scaling_group false m aws oc nb).2.2.1.asg_lc = aws.asg_lc ∧
      (update_scaling_group false m aws oc nb).2.2.2 = false) ∧
    (oc.create_ok = true → oc.update_ok = true → oc.delete_ok = false →
      (update_scaling_group false m aws oc nb).2.1 = m ∧
      (update_scaling_group false m aws oc nb).2.2.1.asg_lc =
        new_lc_name m.lc_info.LaunchConfigurationName ∧
      (update_scaling_group false m aws oc nb).2.2.2 = false) ∧
    (oc.create_ok = true → oc.update_ok = true → oc.delete_ok = true →
      (update_scaling_group false m aws oc nb).1 =
        [Effect.createLC (new_lc_name m.lc_info.LaunchConfigurationName),
         Effect.repointASG (new_lc_name m.lc_info.LaunchConfigurationName),
         Effect.deleteLC m.lc_info.LaunchConfigurationName] ∧
      (update_scaling_group false m aws oc nb).2.1 =
        { lc_info := { LaunchConfigurationName := new_lc_name m.lc_info.LaunchConfigurationName,
                       SpotPrice := if nb.type == "spot" then nb.price else none },
          bid_info := nb } ∧
      (update_scaling_group false m aws oc nb).2.2.1.asg_lc =
        new_lc_name m.lc_info.LaunchConfigurationName ∧
      (update_scaling_group false m aws oc nb).2.2.2 = true) := by
  obtain ⟨c, u, d⟩ := oc
  cases c <;> cases u <;> cases d <;> simp [update_scaling_group]

/-- C4 witness: the amended theorem applied at a concrete successful run. -/
theorem C4_amended_witness :
    (update_scaling_group false ⟨⟨"lc", none⟩, ⟨"spot", some "0.1"⟩⟩ ⟨["lc"], "lc"⟩
      ⟨true, true, true⟩ ⟨"on-demand", some ""⟩).2.2.2 = true :=
  ((C4_amended ⟨⟨"lc", none⟩, ⟨"spot", some "0.1"⟩⟩ ⟨["lc"], "lc"⟩
      ⟨true, true, true⟩ ⟨"on-demand", some ""⟩).2.2.2 rfl rfl rfl).2.2.2

theorem update_scaling_group_events_only (m : AsgMeta) (aws : AwsState)
    (oc : CallOutcomes) (nb : BidInfo) :
    update_scaling_group true m aws oc nb = ([], m, aws, true) := rfl

theorem schedule_events_only (tags : List Tag) (insts : List Instance) (kill : List String) :
    schedule_instance_termination true tags insts kill = (kill, []) := by
  unfold schedule_instance_termination
  split_ifs <;> first | rfl | simp_all

theorem maybe_update_events_only (g : GroupIn) :
    maybe_update true g = ([], g.meta, g.aws) := by
  unfold maybe_update
  split_ifs <;> simp [update_scaling_group_events_only]

theorem full_group_trace_events_only (g : GroupIn) (kill : List String) :
    full_group_trace true g kill = ([], kill) := by
  simp [full_group_trace, schedule_events_only, maybe_update_events_only, run_all]

theorem pass_trace_events_only (gs : List GroupIn) :
    ∀ kill, pass_trace true gs kill = ([], kill) := by
  induction gs with
  | nil => intro kill; rfl
  | cons g gs ih => intro kill; simp [pass_trace, full_group_trace_events_only, ih]

/-- C5: when the agent is configured with events-only, no execution - any
sequence of reconciliation passes together with all the termination timers
they register - ever attempts a mutating provider call; in particular no
create_launch_configuration, update_auto_scaling_group, or
terminate_instance_in_auto_scaling_group call is ever made. -/
theorem C5_events_only_no_calls (passes : List (List GroupIn)) (kill : List String) :
    execution_trace true passes kill = [] := by
  induction passes generalizing kill with
  | nil => rfl
  | cons p ps ih => simp [execution_trace, pass_trace_events_only, ih]

/-- C6: for a terminate percentage in (0, 100] and a positive desired
capacity, the semaphore slot count is round(desired * percentage/100)
clamped to the interval [1, desired] (round is Python 2's
round-half-away-from-zero). -/
theorem C6_set_semaphore (desired : Nat) (tp : ℚ) (h0 : 0 < tp) (h1 : tp ≤ 100)
    (hd : 1 ≤ desired) :
    set_semaphore desired tp =
      max 1 (min (pyRound ((desired : ℚ) * (tp / 100))) (desired : ℤ)) := by
  have hq0 : (0:ℚ) ≤ (desired : ℚ) * (tp / 100) := by positivity
  have hr : pyRound ((desired : ℚ) * (tp / 100)) = ⌊(desired : ℚ) * (tp / 100) + 1/2⌋ := by
    rw [pyRound, if_pos hq0]
  have hr0 : 0 ≤ pyRound ((desired : ℚ) * (tp / 100)) := by
    rw [hr]
    exact Int.le_floor.mpr (by push_cast; linarith)
  have hqd : (desired : ℚ) * (tp / 100) ≤ (desired : ℚ) := by
    have hle : tp / 100 ≤ 1 := by
      rw [div_le_one (by norm_num : (0:ℚ) < 100)]; exact h1
    nlinarith [Nat.cast_nonneg (α := ℚ) desired]
  have hrd : pyRound ((desired : ℚ) * (tp / 100)) ≤ (desired : ℤ) := by
    rw [hr]
    have hlt : ⌊(desired : ℚ) * (tp / 100) + 1/2⌋ < (desired : ℤ) + 1 :=
      Int.floor_lt.mpr (by push_cast; linarith)
    omega
  have htp1 : ¬ (tp > 100) := not_lt.mpr h1
  have htp2 : ¬ (tp ≤ 0) := not_le.mpr h0
  simp only [set_semaphore]
  rw [if_neg htp1, if_neg htp2]
  split_ifs with hz
  · rw [hz]
    rw [min_eq_left (by positivity : (0:ℤ) ≤ (desired : ℤ))]
    rw [max_eq_left (by norm_num : (0:ℤ) ≤ 1)]
  · have h1r : 1 ≤ pyRound ((desired : ℚ) * (tp / 100)) := by omega
    rw [min_eq_left hrd, max_eq_right h1r]

/-- C7: if a group carries the not-terminate tag (the spec-modelled
notTerminate lookup), schedule_instance_termination registers no timer and
adds no pending-termination entry for any instance of the group. -/
theorem C7_not_terminate_no_schedule (events_only : Bool) (tags : List Tag)
    (instances : List Instance) (kill : List String)
    (h : not_terminate_instance tags = true) :
    schedule_instance_termination events_only tags instances kill = (kill, []) := by
  by_cases h1 : instances.isEmpty
  · simp [schedule_instance_termination, h1]
  · simp [schedule_instance_termination, h1, h]

/-- C7 witness. -/
theorem C7_witness :
    schedule_instance_termination false [⟨"minion-manager/not-terminate", "true"⟩]
      [⟨"i-1", "m3.medium", false, some ⟨some "running"⟩⟩] ["i-0"] = (["i-0"], []) :=
  C7_not_terminate_no_schedule false _ _ _ (by decide)

/-- C1 witness: a no-spot group currently on a spot bid needs an update. -/
theorem C1_witness :
    update_needed [⟨"k8s-minion-manager", "no-spot"⟩] ⟨"spot", some "0.1"⟩
      (fun _ => (1, 1)) = true :=
  (C1_update_needed _ _ _ (Or.inl (by decide)) (Or.inl rfl)).mpr
    (Or.inl ⟨by decide, rfl⟩)

/-- C3 witness: the unit-test scenario - on-demand 100, one matching spot
entry at 80; 80 * 1.2 = 96 < 100, so the spot bid priced at 100 is
returned. -/
theorem C3_witness :
    get_new_bid [("m3.large", (100:ℚ))] [⟨"m3.large", "us-west-2b", 80⟩]
      ["us-west-2b"] "m3.large" = { bidType := "spot", bidPrice := some 100 } := by
  have h := (C3_get_new_bid [("m3.large", (100:ℚ))] [⟨"m3.large", "us-west-2b", 80⟩]
      ["us-west-2b"] "m3.large").2.2.2 ("m3.large", (100:ℚ)) 80
    (by decide) (by decide) (by decide)
  rw [h, if_pos (by norm_num)]

/-- C6 witness: desired capacity 3 and terminate percentage 60 give two
slots, as in the repository's semaphore unit test. -/
theorem C6_witness : set_semaphore 3 60 = 2 := by
  rw [C6_set_semaphore 3 60 (by norm_num) (by norm_num) (by norm_num)]
  have h1 : ((3:ℕ):ℚ) * ((60:ℚ) / 100) = 23/10 - 1/2 := by norm_num
  have h2 : pyRound (((3:ℕ):ℚ) * ((60:ℚ) / 100)) = 2 := by
    rw [pyRound, if_pos (by norm_num), h1]
    norm_num
  rw [h2]
  rw [min_eq_left (by norm_num : (2:ℤ) ≤ ((3:ℕ):ℤ))]
  rw [max_eq_right (by norm_num : (1:ℤ) ≤ 2)]

/-- C8: the new launch-configuration name strips a trailing "-0" when the
current name ends in "-0" and appends "-0" otherwise; it always differs from
the current name; and a rewrite only ever creates or points at the new name
and only ever deletes the old name. -/
theorem C8_new_lc_name (t : String) :
    (∀ u : List Char, t.data = u ++ ['-', '0'] → (new_lc_name t).data = u) ∧
    ((¬ ∃ u : List Char, t.data = u ++ ['-', '0']) → new_lc_name t = t ++ "-0") ∧
    new_lc_name t ≠ t ∧
    (∀ (m : AsgMeta) (aws : AwsState) (oc : CallOutcomes) (nb : BidInfo),
      m.lc_info.LaunchConfigurationName = t →
      ∀ e ∈ (update_scaling_group false m aws oc nb).1,
        e = Effect.createLC (new_lc_name t) ∨ e = Effect.repointASG (new_lc_name t) ∨
        e = Effect.deleteLC t) := by
  refine ⟨?_, ?_, ?_, ?_⟩
  · intro u hu
    have hlen : t.data.length = u.length + 2 := by rw [hu, List.length_append]; rfl
    have hcond : t.data.drop (t.data.length - 2) = ['-', '0'] := by
      rw [hlen, hu, Nat.add_sub_cancel]
      exact List.drop_left u ['-', '0']
    rw [new_lc_name, if_pos hcond]
    show t.data.take (t.data.length - 2) = u
    rw [hlen, hu, Nat.add_sub_cancel]
    exact List.take_left u ['-', '0']
  · intro hne
    rw [new_lc_name, if_neg]
    intro hc
    exact hne ⟨t.data.take (t.data.length - 2), by rw [← hc]; exact (List.take_append_drop _ _).symm⟩
  · intro heq
    have hd := congrArg String.data heq
    by_cases hc : t.data.drop (t.data.length - 2) = ['-', '0']
    · rw [new_lc_name, if_pos hc] at hd
      have h2 : t.data.length - (t.data.length - 2) = 2 := by
        rw [← List.length_drop, hc]; rfl
      have h3 : (String.mk (t.data.take (t.data.length - 2))).data =
          t.data.take (t.data.length - 2) := rfl
      rw [h3] at hd
      have h4 := congrArg List.length hd
      rw [List.length_take] at h4
      omega
    · rw [new_lc_name, if_neg hc] at hd
      have h5 : (t ++ "-0").data = t.data ++ ['-', '0'] := rfl
      rw [h5] at hd
      have h4 := congrArg List.length hd
      rw [List.length_append] at h4
      simp at h4
  · intro m aws oc nb hm e he
    obtain ⟨c, u, d⟩ := oc
    cases c <;> cases u <;> cases d <;> simp [update_scaling_group, hm] at he <;> tauto

/-- C8 witness: the toggle at the two concrete shapes. -/
theorem C8_witness :
    (new_lc_name "abc-0").data = "abc".data ∧ new_lc_name "abc-0" ≠ "abc-0" ∧
    new_lc_name "abc" ≠ "abc" :=
  ⟨(C8_new_lc_name "abc-0").1 "abc".data (by decide),
   (C8_new_lc_name "abc-0").2.2.1,
   (C8_new_lc_name "abc").2.2.1⟩

/-- C9: whatever run_or_die does for an instance - terminate it, skip it
because a guard held, or fail at the drain, the terminate call, or the
post-termination wait - the finally block leaves the pending-terminations
map without an entry for that instance. -/
theorem C9_run_or_die_removes (tags : List Tag) (advisor_bid : BidInfo) (i : Instance)
    (kill : List String) (cordon_ok terminate_ok wait_ok : Bool) :
    i.InstanceId ∉ (run_or_die tags advisor_bid i kill cordon_ok terminate_ok wait_ok).2.1 := by
  show i.InstanceId ∉ kill.filter (fun x => x != i.InstanceId)
  simp [List.mem_filter]

/-- C10: AWSAutoscalinGroupMM defines no method named
not_terminate_instance, yet discover_asgs and schedule_instance_termination
invoke it; so discovery of any non-empty managed-group set and scheduling
over any non-empty instance list fail with an AttributeError instead of
completing. -/
theorem C10_missing_not_terminate_instance :
    asg_mm_method_names.contains "not_terminate_instance" = false ∧
    (∀ cluster_name asgs, get_asgs_with_tags cluster_name asgs ≠ [] →
      discover_asgs cluster_name asgs =
        Except.error (PyError.attributeError "not_terminate_instance")) ∧
    (∀ events_only tags instances kill, instances ≠ ([] : List Instance) →
      schedule_instance_termination_dispatch events_only tags instances kill =
        Except.error (PyError.attributeError "not_terminate_instance")) := by
  have hcall : call_asg_mm_method "not_terminate_instance" =
      Except.error (PyError.attributeError "not_terminate_instance") := rfl
  refine ⟨by decide, ?_, ?_⟩
  · intro cn asgs hne
    unfold discover_asgs
    cases hg : get_asgs_with_tags cn asgs with
    | nil => exact absurd hg hne
    | cons a rest =>
      rw [discover_loop, hcall]
  · intro eo tags instances kill hne
    unfold schedule_instance_termination_dispatch
    rw [if_neg (by simpa using hne), hcall]

/-- C10 witness: a single managed group makes discovery fail. -/
theorem C10_witness :
    discover_asgs "cluster"
      [⟨[⟨"KubernetesCluster", "cluster"⟩, ⟨"k8s-minion-manager", "use-spot"⟩]⟩] =
      Except.error (PyError.attributeError "not_terminate_instance") :=
  C10_missing_not_terminate_instance.2.1 "cluster" _ (by decide)

end MinionManager
